import Mathlib

/-!
Verification development for the bluper BLE HID peripheral.

The definitions below shallowly embed the core of the repository:

* `src/hid.rs` — the usage/report codec (`keyboard_usage_to_modifier`,
  `build_mouse_report`, `build_keyboard_report`);
* `src/ble.rs` — the session-arbitrator event loop of `ble_owner_task`:
  its mutable context (`modifiers`, `pressed`, `input_notify`,
  `battery_notify`, `last_battery`, `advertising`), the handling of
  peripheral events and of input commands, and the power-on backoff loop.

Machine integers (`u8`) are embedded as `Nat` (values stay below 256 on
all reachable states; bitwise ops `|||`/`&&&`/`^^^` mirror the Rust
operators), `i8` as `Int` with explicit two's-complement conversion.
`BTreeSet<u8>` is embedded as a strictly-sorted `List Nat`: its iteration
order is ascending, so `iter().next()` is the head of the list.
Fallible peripheral calls are modelled by an environment of failure flags;
the Rust `?` operator corresponds to the `fatal` outcome below.
-/

namespace Bluper

/-- Report ID constants from `src/consts.rs`. -/
def RID_MOUSE : Nat := 0x01

/-- Report ID for the keyboard report, from `src/consts.rs`. -/
def RID_KEYBD : Nat := 0x02

/-- Embedding of `keyboard_usage_to_modifier` from `src/hid.rs`:
returns the modifier-mask bit for the eight modifier usages
`0xE0..0xE7`, `none` otherwise. -/
def keyboard_usage_to_modifier (usage : Nat) : Option Nat :=
  match usage with
  | 0xE0 => some (1 <<< 0)
  | 0xE1 => some (1 <<< 1)
  | 0xE2 => some (1 <<< 2)
  | 0xE3 => some (1 <<< 3)
  | 0xE4 => some (1 <<< 4)
  | 0xE5 => some (1 <<< 5)
  | 0xE6 => some (1 <<< 6)
  | 0xE7 => some (1 <<< 7)
  | _ => none

/-- Two's-complement encoding of an `i8` value as a `u8` byte
(the Rust cast `x as u8` for `x : i8`). -/
def i8_to_u8 (x : Int) : Nat := (x % 256).toNat

/-- Embedding of `build_mouse_report` from `src/hid.rs`:
`[RID_MOUSE, buttons, dx as u8, dy as u8, wheel as u8]`. -/
def build_mouse_report (buttons : Nat) (dx dy wheel : Int) : List Nat :=
  [RID_MOUSE, buttons, i8_to_u8 dx, i8_to_u8 dy, i8_to_u8 wheel]

/-- Embedding of `build_keyboard_report` from `src/hid.rs`: a 9-byte
array `[RID_KEYBD, mods, 0x00, k0..k5]` where slot `3 + i` receives the
`i`-th element of the set's ascending iteration (for `i < 6`) and the
remaining slots keep their `0` initialisation. -/
def build_keyboard_report (mods : Nat) (pressed : List Nat) : List Nat :=
  [RID_KEYBD, mods, 0x00,
   pressed.getD 0 0, pressed.getD 1 0, pressed.getD 2 0,
   pressed.getD 3 0, pressed.getD 4 0, pressed.getD 5 0]

/-- `BTreeSet::insert`: sorted insertion into the strictly-sorted list
that embeds the set (no effect when the element is present). -/
def btreeInsert (x : Nat) : List Nat → List Nat
  | [] => [x]
  | y :: ys =>
    if x < y then x :: y :: ys
    else if x = y then y :: ys
    else y :: btreeInsert x ys

/-- `BTreeSet::remove`: drop the element from the embedded set. -/
def btreeRemove (x : Nat) (l : List Nat) : List Nat :=
  l.filter (fun y => decide (y ≠ x))

/-- The eviction loop of `ble_owner_task` (`src/ble.rs` line 182):
`while pressed.len() > 6 { let first = *pressed.iter().next().unwrap();
pressed.remove(&first); }` — on the sorted-list embedding,
`iter().next()` is the head, i.e. the least element. -/
def evictLoop : List Nat → List Nat
  | [] => []
  | x :: xs => if (x :: xs).length > 6 then evictLoop xs else x :: xs

/-- The input-command vocabulary (`AppCmd` in `src/ui.rs`, together with
the `Exit` variant matched in `src/ble.rs`). -/
inductive AppCmd where
  | Mouse (buttons : Nat) (dx dy wheel : Int)
  | KeyDown (usage : Nat)
  | KeyUp (usage : Nat)
  | Battery (level : Nat)
  | Exit
deriving DecidableEq

/-- The characteristic a subscription update or a notification targets:
the single HID input-report characteristic, the battery-level
characteristic, or any other characteristic. -/
inductive GattChar where
  | input
  | battery
  | other
deriving DecidableEq

/-- The peripheral-stack events consumed by the event loop of
`ble_owner_task` (`PeripheralEvent` in `ble_peripheral_rust`). -/
inductive PeripheralEvent where
  | StateUpdate (is_powered : Bool)
  | SubscriptionUpdate (ch : GattChar) (subscribed : Bool)
  | ReadRequest (ch : GattChar)
  | WriteRequest (ch : GattChar)
deriving DecidableEq

/-- The mutable context owned by the `ble_owner_task` loop
(`src/ble.rs` lines 88, 105–109). -/
structure BleState where
  advertising : Bool
  modifiers : Nat
  pressed : List Nat
  input_notify : Bool
  battery_notify : Bool
  last_battery : Nat
deriving DecidableEq

/-- The loop context right after bring-up succeeds (`src/ble.rs`
lines 88–109): advertising has started, `modifiers = 0`, `pressed`
empty, both notify flags `false`, and `last_battery = 95`. -/
def initState : BleState :=
  { advertising := true
    modifiers := 0
    pressed := []
    input_notify := false
    battery_notify := false
    last_battery := 95 }

/-- One `update_characteristic` call: target characteristic and bytes. -/
structure Tx where
  char : GattChar
  bytes : List Nat
deriving DecidableEq

/-- Failure injection for the fallible peripheral calls made inside the
event loop: whether `update_characteristic`, `start_advertising` and
`stop_advertising` return a transport error at the next call. -/
structure Env where
  upd_fail : Bool
  adv_start_fail : Bool
  adv_stop_fail : Bool
deriving DecidableEq

/-- The environment in which every peripheral call succeeds. -/
def noFail : Env := ⟨false, false, false⟩

/-- Result of one loop iteration: continue with a new context and the
notifications sent, break out of the loop (`break`), or propagate a
transport error through `?`, terminating `ble_owner_task` with `Err`. -/
inductive StepOutcome where
  | cont (s : BleState) (txs : List Tx)
  | exit (s : BleState)
  | fatal (s : BleState)
deriving DecidableEq

/-- The context carried by a step outcome. -/
def StepOutcome.state : StepOutcome → BleState
  | .cont s _ => s
  | .exit s => s
  | .fatal s => s

/-- The notifications sent during a step (none on `exit`/`fatal`). -/
def StepOutcome.txs : StepOutcome → List Tx
  | .cont _ t => t
  | .exit _ => []
  | .fatal _ => []

/-- The peripheral-event branch of the `select!` in `ble_owner_task`
(`src/ble.rs` lines 113–168). On `StateUpdate`, advertising is
(re)started or stopped; a failing `start_advertising` is logged and
leaves `advertising` false, a failing `stop_advertising` is logged and
`advertising` is set false regardless. Subscription updates set the
matching notify flag. Read/write requests are answered with a fixed
success response and touch no loop state. A closed channel breaks. -/
def handleEvt (env : Env) (s : BleState) :
    Option PeripheralEvent → StepOutcome
  | some (.StateUpdate p) =>
    if p then
      if !s.advertising then
        if env.adv_start_fail then .cont s []
        else .cont { s with advertising := true } []
      else .cont s []
    else
      if s.advertising then .cont { s with advertising := false } []
      else .cont s []
  | some (.SubscriptionUpdate ch sub) =>
    match ch with
    | .input => .cont { s with input_notify := sub } []
    | .battery => .cont { s with battery_notify := sub } []
    | .other => .cont s []
  | some (.ReadRequest _) => .cont s []
  | some (.WriteRequest _) => .cont s []
  | none => .exit s

/-- The input-command branch of the `select!` in `ble_owner_task`
(`src/ble.rs` lines 170–207). Mouse/key commands are guarded by
`input_notify`; an unguarded command falls through to the catch-all arm
`Some(_) => {}`. Key transitions update `modifiers` via
`keyboard_usage_to_modifier` or the pressed set via insert/evict or
remove, then notify the input characteristic. Battery commands compare
against `last_battery`, store the level on change, and notify only when
`battery_notify` holds. Every `update_characteristic` uses `?`: a
transport error is fatal to the task. -/
def handleCmd (env : Env) (s : BleState) : Option AppCmd → StepOutcome
  | some (.Mouse buttons dx dy wheel) =>
    if s.input_notify then
      if env.upd_fail then .fatal s
      else .cont s [⟨.input, build_mouse_report buttons dx dy wheel⟩]
    else .cont s []
  | some (.KeyDown usage) =>
    if s.input_notify then
      let s' :=
        match keyboard_usage_to_modifier usage with
        | some m => { s with modifiers := s.modifiers ||| m }
        | none =>
          { s with pressed := evictLoop (btreeInsert usage s.pressed) }
      if env.upd_fail then .fatal s'
      else .cont s'
        [⟨.input, build_keyboard_report s'.modifiers s'.pressed⟩]
    else .cont s []
  | some (.KeyUp usage) =>
    if s.input_notify then
      let s' :=
        match keyboard_usage_to_modifier usage with
        | some m => { s with modifiers := s.modifiers &&& (255 ^^^ m) }
        | none => { s with pressed := btreeRemove usage s.pressed }
      if env.upd_fail then .fatal s'
      else .cont s'
        [⟨.input, build_keyboard_report s'.modifiers s'.pressed⟩]
    else .cont s []
  | some (.Battery level) =>
    if level ≠ s.last_battery then
      let s' := { s with last_battery := level }
      if s.battery_notify then
        if env.upd_fail then .fatal s'
        else .cont s' [⟨.battery, [level]⟩]
      else .cont s' []
    else .cont s []
  | some .Exit => .exit s
  | none => .exit s

/-- One arrival at the `select!`: either branch. -/
inductive LoopInput where
  | evt (e : Option PeripheralEvent)
  | cmd (c : Option AppCmd)
deriving DecidableEq

/-- One iteration of the event loop. -/
def step (env : Env) (s : BleState) : LoopInput → StepOutcome
  | .evt e => handleEvt env s e
  | .cmd c => handleCmd env s c

/-- How a finite run ends: inputs exhausted with the loop still live,
loop broken (`break`), or task failed through `?`. -/
inductive RunStatus where
  | running
  | exited
  | failed
deriving DecidableEq

/-- Result of running the loop on a finite input trace. -/
structure RunResult where
  state : BleState
  txs : List Tx
  status : RunStatus
deriving DecidableEq

/-- Run the event loop over a finite trace of arrivals, accumulating
every notification sent, stopping early on `break` or on a propagated
transport error. -/
def run (env : Env) : List LoopInput → BleState → RunResult
  | [], s => ⟨s, [], .running⟩
  | i :: is, s =>
    match step env s i with
    | .cont s' t =>
      let r := run env is s'
      ⟨r.state, t ++ r.txs, r.status⟩
    | .exit s' => ⟨s', [], .exited⟩
    | .fatal s' => ⟨s', [], .failed⟩

/-- Whether a step outcome continues the loop. -/
def StepOutcome.isCont : StepOutcome → Bool
  | .cont _ _ => true
  | _ => false

/-- Whether a step outcome terminates the task with a propagated
transport error. -/
def StepOutcome.isFatal : StepOutcome → Bool
  | .fatal _ => true
  | _ => false

/-- Input subscribe followed by seven key-downs: usage `0x10` first,
then `0x04`–`0x09`; the seventh key-down overflows the pressed set. -/
def c1trace : List LoopInput :=
  [.evt (some (.SubscriptionUpdate .input true)),
   .cmd (some (.KeyDown 0x10)), .cmd (some (.KeyDown 0x04)),
   .cmd (some (.KeyDown 0x05)), .cmd (some (.KeyDown 0x06)),
   .cmd (some (.KeyDown 0x07)), .cmd (some (.KeyDown 0x08)),
   .cmd (some (.KeyDown 0x09))]

/-- Input subscribe, then a mouse command while every
`update_characteristic` call returns a transport error. -/
def c2trace : List LoopInput :=
  [.evt (some (.SubscriptionUpdate .input true)),
   .cmd (some (.Mouse 0 1 0 0))]

/-- Battery subscribe, then a battery-level command carrying the
initial `last_battery` value 95. -/
def c3trace : List LoopInput :=
  [.evt (some (.SubscriptionUpdate .battery true)),
   .cmd (some (.Battery 95))]

/-- Battery subscribe, then the same battery level twice in a row. -/
def c6trace : List LoopInput :=
  [.evt (some (.SubscriptionUpdate .battery true)),
   .cmd (some (.Battery 95)), .cmd (some (.Battery 95))]

/-- The power-on wait of `ble_owner_task` (`src/ble.rs` lines 74–82),
run against a finite list of `is_powered` poll results: returns the
list of delays slept (in ms) when some poll reports powered, `none`
when the loop is still waiting after the whole list. Each failed poll
sleeps the current delay, then doubles it, capped at 1000
(`delay_ms = (delay_ms * 2).min(1000)`). -/
def powerWaitGo : List Bool → Nat → Option (List Nat)
  | [], _ => none
  | p :: ps, d =>
    if p then some []
    else (powerWaitGo ps (min (d * 2) 1000)).map (fun l => d :: l)

/-- The power-on wait starting from the initial 50 ms delay
(`let mut delay_ms = 50u64`). -/
def power_wait (polls : List Bool) : Option (List Nat) :=
  powerWaitGo polls 50

/-- The delay sequence slept by `n` failed polls starting from delay
`d`: each entry is followed by doubling capped at 1000. -/
def delaysFrom (d : Nat) : Nat → List Nat
  | 0 => []
  | n + 1 => d :: delaysFrom (min (d * 2) 1000) n

/-- A subscribed context whose pressed set holds six usages with the
earliest-inserted one (`0x10`) not the least. -/
def c1state : BleState :=
  { initState with input_notify := true, pressed := [4, 5, 6, 7, 8, 16] }

/-- The invariant of the input-state tracker: the pressed set (in its
ascending iteration order) is strictly sorted, holds at most 6
elements, and contains no modifier usage. -/
def TrackerInv (s : BleState) : Prop :=
  s.pressed.Pairwise (· < ·) ∧ s.pressed.length ≤ 6 ∧
  ∀ u ∈ s.pressed, keyboard_usage_to_modifier u = none

end Bluper

namespace Bluper

/-- C4: `build_keyboard_report` returns exactly 9 bytes; byte 0 is
`0x02`, byte 1 the modifier mask, byte 2 is `0x00`, and bytes 3..8 are
the pressed usages in ascending numeric order (the set's iteration
order), right-padded with `0x00` when fewer than 6 are pressed. -/
theorem keyboard_report_layout (mods : Nat) (pressed : List Nat)
    (hlen : pressed.length ≤ 6) :
    (build_keyboard_report mods pressed).length = 9 ∧
    (build_keyboard_report mods pressed).getD 0 0 = 0x02 ∧
    (build_keyboard_report mods pressed).getD 1 0 = mods ∧
    (build_keyboard_report mods pressed).getD 2 0 = 0x00 ∧
    (build_keyboard_report mods pressed).drop 3 =
      pressed ++ List.replicate (6 - pressed.length) 0 := by
  refine ⟨rfl, rfl, rfl, rfl, ?_⟩
  match pressed, hlen with
  | [], _ => rfl
  | [a], _ => rfl
  | [a, b], _ => rfl
  | [a, b, c], _ => rfl
  | [a, b, c, d], _ => rfl
  | [a, b, c, d, e], _ => rfl
  | [a, b, c, d, e, f], _ => rfl

/-- Witness for `keyboard_report_layout` at a concrete input. -/
theorem keyboard_report_layout_witness :
    (build_keyboard_report 0x12 [4, 5, 9]).length = 9 ∧
    (build_keyboard_report 0x12 [4, 5, 9]).getD 0 0 = 0x02 ∧
    (build_keyboard_report 0x12 [4, 5, 9]).getD 1 0 = 0x12 ∧
    (build_keyboard_report 0x12 [4, 5, 9]).getD 2 0 = 0x00 ∧
    (build_keyboard_report 0x12 [4, 5, 9]).drop 3 =
      [4, 5, 9] ++ List.replicate (6 - [4, 5, 9].length) 0 :=
  keyboard_report_layout 0x12 [4, 5, 9] (by decide)

/-- The two's-complement byte of an in-range `i8` value, described
arithmetically. -/
theorem i8_to_u8_spec (x : Int) (h₁ : -128 ≤ x) (h₂ : x ≤ 127) :
    (i8_to_u8 x : Int) = if 0 ≤ x then x else x + 256 := by
  unfold i8_to_u8
  rw [Int.toNat_of_nonneg (Int.emod_nonneg x (by decide))]
  omega

/-- C5: `build_mouse_report` returns exactly 5 bytes
`[0x01, buttons, dx, dy, wheel]` where each of `dx`, `dy`, `wheel` is
the two's-complement byte of the signed value: the byte equals the value
itself when nonnegative and `value + 256` when negative (so `dx = -10`
yields byte 246). -/
theorem mouse_report_layout (buttons : Nat) (dx dy wheel : Int)
    (hdx₁ : -128 ≤ dx) (hdx₂ : dx ≤ 127)
    (hdy₁ : -128 ≤ dy) (hdy₂ : dy ≤ 127)
    (hw₁ : -128 ≤ wheel) (hw₂ : wheel ≤ 127) :
    (build_mouse_report buttons dx dy wheel).length = 5 ∧
    (build_mouse_report buttons dx dy wheel).getD 0 0 = 0x01 ∧
    (build_mouse_report buttons dx dy wheel).getD 1 0 = buttons ∧
    ((build_mouse_report buttons dx dy wheel).getD 2 0 : Int) =
      (if 0 ≤ dx then dx else dx + 256) ∧
    ((build_mouse_report buttons dx dy wheel).getD 3 0 : Int) =
      (if 0 ≤ dy then dy else dy + 256) ∧
    ((build_mouse_report buttons dx dy wheel).getD 4 0 : Int) =
      (if 0 ≤ wheel then wheel else wheel + 256) := by
  refine ⟨rfl, rfl, rfl, ?_, ?_, ?_⟩
  · exact i8_to_u8_spec dx hdx₁ hdx₂
  · exact i8_to_u8_spec dy hdy₁ hdy₂
  · exact i8_to_u8_spec wheel hw₁ hw₂

/-- Witness for `mouse_report_layout`: `dx = -10` encodes as byte 246. -/
theorem mouse_report_layout_witness :
    (build_mouse_report 7 (-10) 5 1).length = 5 ∧
    (build_mouse_report 7 (-10) 5 1).getD 0 0 = 0x01 ∧
    (build_mouse_report 7 (-10) 5 1).getD 1 0 = 7 ∧
    ((build_mouse_report 7 (-10) 5 1).getD 2 0 : Int) =
      (if 0 ≤ (-10 : Int) then (-10 : Int) else (-10 : Int) + 256) ∧
    ((build_mouse_report 7 (-10) 5 1).getD 3 0 : Int) =
      (if 0 ≤ (5 : Int) then (5 : Int) else (5 : Int) + 256) ∧
    ((build_mouse_report 7 (-10) 5 1).getD 4 0 : Int) =
      (if 0 ≤ (1 : Int) then (1 : Int) else (1 : Int) + 256) :=
  mouse_report_layout 7 (-10) 5 1 (by decide) (by decide) (by decide)
    (by decide) (by decide) (by decide)

/-- C9 counterexample: the claim that all arbitrator-owned state starts
at zero/empty defaults fails, because `last_battery` is initialised to
95 (`src/ble.rs` line 109), not 0. -/
theorem init_defaults_counterexample :
    ¬ (initState.modifiers = 0 ∧ initState.pressed = [] ∧
       initState.input_notify = false ∧ initState.battery_notify = false ∧
       initState.last_battery = 0) := by decide

/-- C9 amended: at session start the modifier mask is 0, the pressed set
is empty, both subscription flags are false, and `last_battery` starts
at 95 (not 0). -/
theorem init_defaults :
    initState.modifiers = 0 ∧ initState.pressed = [] ∧
    initState.input_notify = false ∧ initState.battery_notify = false ∧
    initState.last_battery = 95 := by decide

/-- C10: a `KeyDown` or `KeyUp` command processed while `input_notify`
is false falls through to the catch-all arm: the whole context —
modifier mask and pressed set included — is unchanged and nothing is
transmitted, in every environment. -/
theorem unsubscribed_key_drop_total (env : Env) (s : BleState) (u : Nat)
    (h : s.input_notify = false) :
    step env s (.cmd (some (.KeyDown u))) = .cont s [] ∧
    step env s (.cmd (some (.KeyUp u))) = .cont s [] := by
  constructor <;> simp [step, handleCmd, h]

/-- Witness for `unsubscribed_key_drop_total` at the initial state. -/
theorem unsubscribed_key_drop_total_witness :
    step noFail initState (.cmd (some (.KeyDown 4))) = .cont initState [] ∧
    step noFail initState (.cmd (some (.KeyUp 4))) = .cont initState [] :=
  unsubscribed_key_drop_total noFail initState 4 rfl

/-- C2 counterexample: with the input characteristic subscribed, a
transport error from `update_characteristic` while sending a mouse
report terminates the session with an error (the `?` on `src/ble.rs`
line 176 propagates), contradicting the claim that such errors are
logged and the loop continues. -/
theorem update_error_counterexample :
    (run ⟨true, false, false⟩ c2trace initState).status = .failed ∧
    ¬ ((run ⟨true, false, false⟩ c2trace initState).status = .running) := by
  decide

/-- C2 amended: inside the steady-state loop, transport errors while
toggling advertising are logged and the loop continues (every
`StateUpdate` event yields a continuing outcome, whatever fails), but a
transport error from `update_characteristic` while sending a mouse,
keyboard or battery report propagates through `?` and terminates the
session. -/
theorem advertising_error_nonfatal_update_error_fatal
    (env : Env) (s : BleState) :
    (∀ e : PeripheralEvent,
      (handleEvt env s (some e)).isCont = true) ∧
    (env.upd_fail = true → s.input_notify = true →
      ∀ b : Nat, ∀ dx dy wheel : Int, ∀ u : Nat,
        (step env s (.cmd (some (.Mouse b dx dy wheel)))).isFatal = true ∧
        (step env s (.cmd (some (.KeyDown u)))).isFatal = true ∧
        (step env s (.cmd (some (.KeyUp u)))).isFatal = true) ∧
    (env.upd_fail = true → s.battery_notify = true →
      ∀ lvl : Nat, lvl ≠ s.last_battery →
        (step env s (.cmd (some (.Battery lvl)))).isFatal = true) := by
  refine ⟨?_, ?_, ?_⟩
  · intro e
    rcases e with p | ⟨ch, sub⟩ | ch | ch
    · cases p <;> cases ha : s.advertising <;>
        cases hf : env.adv_start_fail <;>
        simp [handleEvt, ha, hf, StepOutcome.isCont]
    · cases ch <;> simp [handleEvt, StepOutcome.isCont]
    · simp [handleEvt, StepOutcome.isCont]
    · simp [handleEvt, StepOutcome.isCont]
  · intro hf hn b dx dy wheel u
    refine ⟨?_, ?_, ?_⟩ <;>
      simp [step, handleCmd, hf, hn, StepOutcome.isFatal]
  · intro hf hn lvl hne
    simp [step, handleCmd, hf, hn, hne, StepOutcome.isFatal]

/-- Witness for `advertising_error_nonfatal_update_error_fatal` with
every peripheral call failing, at a subscribed state. -/
theorem advertising_error_nonfatal_update_error_fatal_witness :
    (handleEvt ⟨true, true, true⟩
      { initState with input_notify := true, battery_notify := true }
      (some (.StateUpdate false))).isCont = true ∧
    (step ⟨true, true, true⟩
      { initState with input_notify := true, battery_notify := true }
      (.cmd (some (.Mouse 0 1 0 0)))).isFatal = true ∧
    (step ⟨true, true, true⟩
      { initState with input_notify := true, battery_notify := true }
      (.cmd (some (.Battery 42)))).isFatal = true := by
  have h := advertising_error_nonfatal_update_error_fatal
    ⟨true, true, true⟩
    { initState with input_notify := true, battery_notify := true }
  exact ⟨h.1 (.StateUpdate false),
    (h.2.1 rfl rfl 0 1 0 0 4).1,
    h.2.2 rfl rfl 42 (by decide)⟩

/-- C3 counterexample: a battery command processed while the battery
subscription flag is true can still transmit nothing (level 95 equals
the initial `last_battery`), so the transmitted set is not exactly the
subset of commands processed while subscribed. -/
theorem gating_exactness_counterexample :
    (run noFail [.evt (some (.SubscriptionUpdate .battery true))]
      initState).state.battery_notify = true ∧
    (run noFail c3trace initState).txs = [] := by decide

/-- C6 counterexample: from session start, subscribing to battery and
then processing level 95 twice in a row yields zero transmissions, not
exactly one — `last_battery` starts at 95, and the code compares
against the last applied (not last transmitted) level. -/
theorem battery_idempotence_counterexample :
    (run noFail [.evt (some (.SubscriptionUpdate .battery true))]
      initState).state.battery_notify = true ∧
    (run noFail c6trace initState).txs = [] ∧
    ¬ ((run noFail c6trace initState).txs.length = 1) := by decide

/-- C6 amended: a battery command transmits a battery update iff the
battery subscription flag is true and the level differs from the last
*applied* level (`last_battery`, initialised to 95 and updated on every
change whether or not subscribed); consequently the second of two equal
consecutive battery commands never transmits. -/
theorem battery_change_gating (env : Env) (s : BleState) (lvl : Nat)
    (hupd : env.upd_fail = false) :
    ((step env s (.cmd (some (.Battery lvl)))).txs =
      if s.battery_notify = true ∧ lvl ≠ s.last_battery then
        [⟨.battery, [lvl]⟩] else []) ∧
    (step env (step env s (.cmd (some (.Battery lvl)))).state
      (.cmd (some (.Battery lvl)))).txs = [] := by
  constructor
  · by_cases hc : lvl = s.last_battery
    · simp [step, handleCmd, hc, StepOutcome.txs]
    · cases hb : s.battery_notify <;>
        simp [step, handleCmd, hc, hb, hupd, StepOutcome.txs]
  · by_cases hc : lvl = s.last_battery
    · simp [step, handleCmd, hc, StepOutcome.state, StepOutcome.txs]
    · cases hb : s.battery_notify <;>
        simp [step, handleCmd, hc, hb, hupd, StepOutcome.state,
          StepOutcome.txs]

/-- Witness for `battery_change_gating`: subscribed, level 42 against
the initial level 95. -/
theorem battery_change_gating_witness :
    ((step noFail { initState with battery_notify := true }
      (.cmd (some (.Battery 42)))).txs =
      if ({ initState with battery_notify := true } :
            BleState).battery_notify = true ∧
         42 ≠ ({ initState with battery_notify := true } :
            BleState).last_battery then
        [⟨.battery, [42]⟩] else []) ∧
    (step noFail (step noFail { initState with battery_notify := true }
      (.cmd (some (.Battery 42)))).state
      (.cmd (some (.Battery 42)))).txs = [] :=
  battery_change_gating noFail { initState with battery_notify := true }
    42 rfl

/-- The peripheral-event branch never calls `update_characteristic`. -/
theorem handleEvt_txs (env : Env) (s : BleState)
    (e : Option PeripheralEvent) : (handleEvt env s e).txs = [] := by
  rcases e with _ | e
  · rfl
  · rcases e with p | ⟨ch, sub⟩ | ch | ch
    · simp only [handleEvt]
      split_ifs <;> rfl
    · cases ch <;> rfl
    · rfl
    · rfl

/-- Safety half of the gating property: a notification to the input
characteristic is only ever sent while `input_notify` holds in the
pre-state, and one to the battery characteristic only while
`battery_notify` holds. -/
theorem step_txs_gated (env : Env) (s : BleState) (i : LoopInput) :
    ∀ t ∈ (step env s i).txs,
      (t.char = .input → s.input_notify = true) ∧
      (t.char = .battery → s.battery_notify = true) := by
  rcases i with e | c
  · intro t ht
    rw [show step env s (.evt e) = handleEvt env s e from rfl,
      handleEvt_txs env s e] at ht
    simp at ht
  · rcases c with _ | (⟨b, dx, dy, wheel⟩ | u | u | lvl | _)
    · intro t ht
      simp [step, handleCmd, StepOutcome.txs] at ht
    · by_cases hn : s.input_notify = true
      · cases hf : env.upd_fail
        · intro t ht
          simp [step, handleCmd, hn, hf, StepOutcome.txs] at ht
          subst ht
          simp [hn]
        · intro t ht
          simp [step, handleCmd, hn, hf, StepOutcome.txs] at ht
      · intro t ht
        simp [step, handleCmd, hn, StepOutcome.txs] at ht
    · by_cases hn : s.input_notify = true
      · cases hf : env.upd_fail
        · intro t ht
          simp [step, handleCmd, hn, hf, StepOutcome.txs] at ht
          subst ht
          simp [hn]
        · intro t ht
          simp [step, handleCmd, hn, hf, StepOutcome.txs] at ht
      · intro t ht
        simp [step, handleCmd, hn, StepOutcome.txs] at ht
    · by_cases hn : s.input_notify = true
      · cases hf : env.upd_fail
        · intro t ht
          simp [step, handleCmd, hn, hf, StepOutcome.txs] at ht
          subst ht
          simp [hn]
        · intro t ht
          simp [step, handleCmd, hn, hf, StepOutcome.txs] at ht
      · intro t ht
        simp [step, handleCmd, hn, StepOutcome.txs] at ht
    · by_cases hc : lvl = s.last_battery
      · intro t ht
        simp [step, handleCmd, hc, StepOutcome.txs] at ht
      · by_cases hb : s.battery_notify = true
        · cases hf : env.upd_fail
          · intro t ht
            simp [step, handleCmd, hc, hb, hf, StepOutcome.txs] at ht
            subst ht
            simp [hb]
          · intro t ht
            simp [step, handleCmd, hc, hb, hf, StepOutcome.txs] at ht
        · intro t ht
          simp [step, handleCmd, hc, hb, StepOutcome.txs] at ht
    · intro t ht
      simp [step, handleCmd, StepOutcome.txs] at ht

/-- C3 amended: in every interleaving, a mouse/keyboard notification is
only sent while `input_notify` holds and a battery notification only
while `battery_notify` holds (safety, first conjunct, over every step of
every run); a mouse or keyboard command processed while subscribed and
error-free yields exactly one input notification (completeness for the
input channel), and while unsubscribed yields none — but battery
commands are additionally gated on a level change, so the transmitted
set is not exactly the subscribed subset of commands (see the
counterexample). -/
theorem transmission_gated (env : Env) (s : BleState) :
    (∀ i : LoopInput, ∀ t ∈ (step env s i).txs,
      (t.char = .input → s.input_notify = true) ∧
      (t.char = .battery → s.battery_notify = true)) ∧
    (env.upd_fail = false → s.input_notify = true →
      (∀ b : Nat, ∀ dx dy wheel : Int,
        (step env s (.cmd (some (.Mouse b dx dy wheel)))).txs =
          [⟨.input, build_mouse_report b dx dy wheel⟩]) ∧
      (∀ u : Nat, ∃ pkt,
        (step env s (.cmd (some (.KeyDown u)))).txs = [⟨.input, pkt⟩]) ∧
      (∀ u : Nat, ∃ pkt,
        (step env s (.cmd (some (.KeyUp u)))).txs = [⟨.input, pkt⟩])) ∧
    (s.input_notify = false →
      ∀ b u : Nat, ∀ dx dy wheel : Int,
        (step env s (.cmd (some (.Mouse b dx dy wheel)))).txs = [] ∧
        (step env s (.cmd (some (.KeyDown u)))).txs = [] ∧
        (step env s (.cmd (some (.KeyUp u)))).txs = []) := by
  refine ⟨step_txs_gated env s, ?_, ?_⟩
  · intro hf hn
    refine ⟨?_, ?_, ?_⟩
    · intro b dx dy wheel
      simp [step, handleCmd, hn, hf, StepOutcome.txs]
    · intro u
      cases hm : keyboard_usage_to_modifier u with
      | some m =>
        exact ⟨build_keyboard_report (s.modifiers ||| m) s.pressed, by
          simp [step, handleCmd, hn, hf, hm, StepOutcome.txs]⟩
      | none =>
        exact ⟨build_keyboard_report s.modifiers
            (evictLoop (btreeInsert u s.pressed)), by
          simp [step, handleCmd, hn, hf, hm, StepOutcome.txs]⟩
    · intro u
      cases hm : keyboard_usage_to_modifier u with
      | some m =>
        exact ⟨build_keyboard_report (s.modifiers &&& (255 ^^^ m))
            s.pressed, by
          simp [step, handleCmd, hn, hf, hm, StepOutcome.txs]⟩
      | none =>
        exact ⟨build_keyboard_report s.modifiers
            (btreeRemove u s.pressed), by
          simp [step, handleCmd, hn, hf, hm, StepOutcome.txs]⟩
  · intro hn b u dx dy wheel
    refine ⟨?_, ?_, ?_⟩ <;> simp [step, handleCmd, hn, StepOutcome.txs]

/-- Witness for `transmission_gated`: a subscribed mouse command
transmits exactly its report. -/
theorem transmission_gated_witness :
    (step noFail { initState with input_notify := true }
      (.cmd (some (.Mouse 7 (-10) 5 1)))).txs =
      [⟨.input, build_mouse_report 7 (-10) 5 1⟩] :=
  ((transmission_gated noFail
    { initState with input_notify := true }).2.1 rfl rfl).1 7 (-10) 5 1

/-- Membership after a sorted insert: exactly the old elements plus the
inserted one. -/
theorem mem_btreeInsert (z x : Nat) (l : List Nat) :
    z ∈ btreeInsert x l ↔ z = x ∨ z ∈ l := by
  induction l with
  | nil => simp [btreeInsert]
  | cons y ys ih =>
    by_cases h1 : x < y
    · simp [btreeInsert, h1]
    · by_cases h2 : x = y
      · subst h2
        simp [btreeInsert, h1]
      · simp [btreeInsert, h1, h2, ih]
        tauto

/-- Sorted insert preserves strict sortedness. -/
theorem btreeInsert_pairwise (x : Nat) (l : List Nat)
    (h : l.Pairwise (· < ·)) : (btreeInsert x l).Pairwise (· < ·) := by
  induction l with
  | nil => simp [btreeInsert]
  | cons y ys ih =>
    rw [List.pairwise_cons] at h
    obtain ⟨hy, hys⟩ := h
    by_cases h1 : x < y
    · simp only [btreeInsert, if_pos h1]
      rw [List.pairwise_cons]
      refine ⟨?_, List.pairwise_cons.mpr ⟨hy, hys⟩⟩
      intro a ha
      rcases List.mem_cons.mp ha with rfl | ha
      · exact h1
      · exact lt_trans h1 (hy a ha)
    · by_cases h2 : x = y
      · subst h2
        simp only [btreeInsert, if_neg h1, if_pos rfl]
        exact List.pairwise_cons.mpr ⟨hy, hys⟩
      · simp only [btreeInsert, if_neg h1, if_neg h2]
        rw [List.pairwise_cons]
        refine ⟨?_, ih hys⟩
        intro a ha
        rcases (mem_btreeInsert a x ys).mp ha with rfl | ha
        · omega
        · exact hy a ha

/-- Inserting a fresh element grows the set by exactly one. -/
theorem btreeInsert_length (x : Nat) (l : List Nat) (h : x ∉ l) :
    (btreeInsert x l).length = l.length + 1 := by
  induction l with
  | nil => rfl
  | cons y ys ih =>
    rw [List.mem_cons, not_or] at h
    by_cases h1 : x < y
    · simp [btreeInsert, h1]
    · simp only [btreeInsert, if_neg h1, if_neg h.1]
      simp [ih h.2]

/-- The eviction loop always leaves at most 6 elements. -/
theorem evictLoop_length_le (l : List Nat) : (evictLoop l).length ≤ 6 := by
  induction l with
  | nil => simp [evictLoop]
  | cons x xs ih =>
    simp only [evictLoop]
    split
    · exact ih
    · omega

/-- The eviction loop only drops elements from the front: the result is
a sublist of the input. -/
theorem evictLoop_sublist (l : List Nat) : (evictLoop l).Sublist l := by
  induction l with
  | nil => simp [evictLoop]
  | cons x xs ih =>
    simp only [evictLoop]
    split
    · exact ih.trans (List.sublist_cons_self x xs)
    · exact List.Sublist.refl _

/-- A set already within capacity is untouched by the eviction loop. -/
theorem evictLoop_eq_self (l : List Nat) (h : l.length ≤ 6) :
    evictLoop l = l := by
  cases l with
  | nil => rfl
  | cons x xs =>
    simp only [evictLoop]
    rw [if_neg (by omega)]

/-- On a 7-element set the eviction loop drops exactly the head (the
least element of the sorted embedding). -/
theorem evictLoop_of_length_seven (l : List Nat) (h : l.length = 7) :
    evictLoop l = l.tail := by
  cases l with
  | nil => simp at h
  | cons x xs =>
    simp only [evictLoop]
    rw [if_pos (by simp at h ⊢; omega)]
    exact evictLoop_eq_self xs (by simp at h; omega)

/-- C1 amended: when a key-down of an ordinary usage is processed while
subscribed and the pressed set already holds 6 other usages, the
*lowest-valued* usage among the current ones and the new one is evicted
(ordered-set eviction, not FIFO): it is the unique element removed,
every strictly larger one is kept, and the set returns to 6 elements. -/
theorem overflow_evicts_least (env : Env) (s : BleState) (u : Nat)
    (hn : s.input_notify = true)
    (hu : keyboard_usage_to_modifier u = none)
    (hs : s.pressed.Pairwise (· < ·))
    (hlen : s.pressed.length = 6)
    (hmem : u ∉ s.pressed) :
    ∃ m,
      (m = u ∨ m ∈ s.pressed) ∧
      m ∉ (step env s (.cmd (some (.KeyDown u)))).state.pressed ∧
      (∀ x ∈ (step env s (.cmd (some (.KeyDown u)))).state.pressed,
        m < x) ∧
      (∀ x, (x = u ∨ x ∈ s.pressed) → x ≠ m →
        x ∈ (step env s (.cmd (some (.KeyDown u)))).state.pressed) ∧
      (step env s (.cmd (some (.KeyDown u)))).state.pressed.length = 6 := by
  have hpost : (step env s (.cmd (some (.KeyDown u)))).state.pressed =
      evictLoop (btreeInsert u s.pressed) := by
    cases hf : env.upd_fail <;>
      simp [step, handleCmd, hn, hu, hf, StepOutcome.state]
  have hlen7 : (btreeInsert u s.pressed).length = 7 := by
    rw [btreeInsert_length u s.pressed hmem, hlen]
  have hpair : (btreeInsert u s.pressed).Pairwise (· < ·) :=
    btreeInsert_pairwise u s.pressed hs
  obtain ⟨m, t, hmt⟩ : ∃ m t, btreeInsert u s.pressed = m :: t := by
    cases hcase : btreeInsert u s.pressed with
    | nil => rw [hcase] at hlen7; simp at hlen7
    | cons a b => exact ⟨a, b, rfl⟩
  have hevict : evictLoop (btreeInsert u s.pressed) = t := by
    rw [hmt] at hlen7 ⊢
    rw [evictLoop_of_length_seven _ hlen7]
    rfl
  rw [hmt, List.pairwise_cons] at hpair
  obtain ⟨hmlt, _⟩ := hpair
  refine ⟨m, ?_, ?_, ?_, ?_, ?_⟩
  · have : m ∈ btreeInsert u s.pressed := by rw [hmt]; exact List.mem_cons_self m t
    exact (mem_btreeInsert m u s.pressed).mp this
  · rw [hpost, hevict]
    intro hcontra
    exact absurd (hmlt m hcontra) (lt_irrefl m)
  · rw [hpost, hevict]
    exact hmlt
  · intro x hx hxm
    rw [hpost, hevict]
    have : x ∈ btreeInsert u s.pressed := (mem_btreeInsert x u s.pressed).mpr hx
    rw [hmt, List.mem_cons] at this
    exact this.resolve_left hxm
  · rw [hpost, hevict]
    rw [hmt] at hlen7
    simp at hlen7
    omega

/-- Witness for `overflow_evicts_least`: pressed `[4,5,6,7,8,16]`,
key-down of usage 9. -/
theorem overflow_evicts_least_witness :
    ∃ m,
      (m = 9 ∨ m ∈ c1state.pressed) ∧
      m ∉ (step noFail c1state
        (.cmd (some (.KeyDown 9)))).state.pressed ∧
      (∀ x ∈ (step noFail c1state
        (.cmd (some (.KeyDown 9)))).state.pressed, m < x) ∧
      (∀ x, (x = 9 ∨ x ∈ c1state.pressed) → x ≠ m →
        x ∈ (step noFail c1state
          (.cmd (some (.KeyDown 9)))).state.pressed) ∧
      (step noFail c1state
        (.cmd (some (.KeyDown 9)))).state.pressed.length = 6 :=
  overflow_evicts_least noFail c1state 9 rfl rfl (by decide) (by decide)
    (by decide)

/-- Running the wait against `n` failed polls followed by a powered
poll sleeps exactly the `delaysFrom` sequence. -/
theorem powerWaitGo_replicate (n : Nat) : ∀ (d : Nat) (rest : List Bool),
    powerWaitGo (List.replicate n false ++ true :: rest) d =
      some (delaysFrom d n) := by
  induction n with
  | zero =>
    intro d rest
    simp [powerWaitGo, delaysFrom]
  | succ k ih =>
    intro d rest
    simp [List.replicate_succ, powerWaitGo, delaysFrom, ih]

/-- The delay sequence has one entry per failed poll. -/
theorem delaysFrom_length : ∀ (n d : Nat), (delaysFrom d n).length = n := by
  intro n
  induction n with
  | zero => intro d; rfl
  | succ k ih => intro d; simp [delaysFrom, ih]

/-- Closed form of the delay sequence: the `i`-th delay (0-based) is
the start delay doubled `i` times, capped at 1000. -/
theorem delaysFrom_getD : ∀ (n d i : Nat), d ≤ 1000 → i < n →
    (delaysFrom d n).getD i 0 = min (d * 2 ^ i) 1000 := by
  intro n
  induction n with
  | zero =>
    intro d i hd hi
    omega
  | succ k ih =>
    intro d i hd hi
    cases i with
    | zero =>
      simp [delaysFrom]
      omega
    | succ j =>
      have h2 : min (d * 2) 1000 ≤ 1000 := Nat.min_le_right _ _
      have hrec := ih (min (d * 2) 1000) j h2 (by omega)
      simp only [delaysFrom, List.getD_cons_succ]
      rw [hrec]
      have hpow : 1 ≤ 2 ^ j := Nat.one_le_pow j 2 (by norm_num)
      rcases le_or_lt (d * 2) 1000 with hle | hgt
      · rw [Nat.min_eq_left hle]
        congr 1
        rw [pow_succ]
        ring
      · rw [Nat.min_eq_right (Nat.le_of_lt hgt)]
        have h1 : 1000 ≤ 1000 * 2 ^ j := by
          calc (1000 : Nat) = 1000 * 1 := by ring
          _ ≤ 1000 * 2 ^ j := Nat.mul_le_mul (le_refl 1000) hpow
        have h2' : 1000 ≤ d * 2 ^ (j + 1) := by
          calc (1000 : Nat) ≤ d * 2 := Nat.le_of_lt hgt
          _ = d * 2 * 1 := by ring
          _ ≤ d * 2 * 2 ^ j := Nat.mul_le_mul (le_refl (d * 2)) hpow
          _ = d * 2 ^ (j + 1) := by rw [pow_succ]; ring
        rw [Nat.min_eq_right h1, Nat.min_eq_right h2']

/-- The wait succeeds on any poll list that reports powered at least
once, from any current delay. -/
theorem powerWaitGo_isSome : ∀ (polls : List Bool) (d : Nat),
    true ∈ polls → (powerWaitGo polls d).isSome = true := by
  intro polls
  induction polls with
  | nil =>
    intro d h
    simp at h
  | cons p ps ih =>
    intro d hp
    cases p
    · have hps : true ∈ ps := by simpa using hp
      have hs := ih (min (d * 2) 1000) hps
      cases hgo : powerWaitGo ps (min (d * 2) 1000) with
      | none => rw [hgo] at hs; simp at hs
      | some l => simp [powerWaitGo, hgo]
    · simp [powerWaitGo]

/-- The wait never gives up while every poll reports unpowered. -/
theorem powerWaitGo_all_false : ∀ (n d : Nat),
    powerWaitGo (List.replicate n false) d = none := by
  intro n
  induction n with
  | zero => intro d; rfl
  | succ k ih => intro d; simp [List.replicate_succ, powerWaitGo, ih]

/-- C7: the power-on wait sleeps 50 ms after the first failed poll and
doubles the delay after each further failure, capped at 1000 ms — the
delay after the `i`-th failure (0-based `i`) is `min (50 * 2 ^ i) 1000`,
giving the sequence 50, 100, 200, 400, 800, 1000, 1000, …; the wait
never fails permanently: it succeeds as soon as any poll reports
powered, and after any number of unpowered polls it is still waiting,
not failed. -/
theorem power_backoff :
    (∀ (n : Nat) (rest : List Bool),
      power_wait (List.replicate n false ++ true :: rest) =
        some (delaysFrom 50 n)) ∧
    (∀ n : Nat, (delaysFrom 50 n).length = n) ∧
    (∀ n i : Nat, i < n →
      (delaysFrom 50 n).getD i 0 = min (50 * 2 ^ i) 1000) ∧
    (∀ polls : List Bool, true ∈ polls →
      (power_wait polls).isSome = true) ∧
    (∀ n : Nat, power_wait (List.replicate n false) = none) := by
  refine ⟨?_, ?_, ?_, ?_, ?_⟩
  · intro n rest
    exact powerWaitGo_replicate n 50 rest
  · intro n
    exact delaysFrom_length n 50
  · intro n i hi
    exact delaysFrom_getD n 50 i (by norm_num) hi
  · intro polls h
    exact powerWaitGo_isSome polls 50 h
  · intro n
    exact powerWaitGo_all_false n 50

/-- Witness for `power_backoff`: seven failed polls sleep
50, 100, 200, 400, 800, 1000, 1000 ms, and concrete instances of the
other conjuncts. -/
theorem power_backoff_witness :
    power_wait [false, false, false, false, false, false, false, true] =
      some [50, 100, 200, 400, 800, 1000, 1000] ∧
    (delaysFrom 50 7).getD 5 0 = min (50 * 2 ^ 5) 1000 ∧
    (power_wait [false, true]).isSome = true ∧
    power_wait [false, false, false] = none :=
  ⟨(power_backoff.1 7 []).trans (by decide),
   power_backoff.2.2.1 7 5 (by decide),
   power_backoff.2.2.2.1 [false, true] (by decide),
   power_backoff.2.2.2.2 3⟩

/-- C1 counterexample: after subscribing and pressing `0x10` first,
then `0x04`–`0x08`, the seventh key-down (`0x09`) evicts the
lowest-valued usage `0x04`, not the earliest-inserted `0x10`: the
earliest-inserted usage is still present afterwards, refuting FIFO
eviction. -/
theorem fifo_eviction_counterexample :
    (run noFail c1trace initState).state.pressed = [5, 6, 7, 8, 9, 16] ∧
    16 ∈ (run noFail c1trace initState).state.pressed ∧
    4 ∉ (run noFail c1trace initState).state.pressed := by decide

/-- The peripheral-event branch never touches the pressed set. -/
theorem handleEvt_state_pressed (env : Env) (s : BleState)
    (e : Option PeripheralEvent) :
    (handleEvt env s e).state.pressed = s.pressed := by
  rcases e with _ | e
  · rfl
  · rcases e with p | ⟨ch, sub⟩ | ch | ch
    · simp only [handleEvt]
      split_ifs <;> rfl
    · cases ch <;> rfl
    · rfl
    · rfl

/-- The tracker invariant is preserved by every loop iteration, in
every environment. -/
theorem trackerInv_step (env : Env) (s : BleState) (i : LoopInput)
    (h : TrackerInv s) : TrackerInv (step env s i).state := by
  obtain ⟨hpair, hlen, hmod⟩ := h
  rcases i with e | c
  · show TrackerInv (handleEvt env s e).state
    unfold TrackerInv
    rw [handleEvt_state_pressed]
    exact ⟨hpair, hlen, hmod⟩
  · rcases c with _ | (⟨b, dx, dy, wheel⟩ | u | u | lvl | _)
    · exact ⟨hpair, hlen, hmod⟩
    · have hst : (step env s (.cmd (some (.Mouse b dx dy wheel)))).state =
          s := by
        by_cases hn : s.input_notify = true
        · cases hf : env.upd_fail <;>
            simp [step, handleCmd, hn, hf, StepOutcome.state]
        · simp [step, handleCmd, hn, StepOutcome.state]
      unfold TrackerInv
      rw [hst]
      exact ⟨hpair, hlen, hmod⟩
    · by_cases hn : s.input_notify = true
      · cases hm : keyboard_usage_to_modifier u with
        | some m =>
          have hst : (step env s
              (.cmd (some (.KeyDown u)))).state.pressed = s.pressed := by
            cases hf : env.upd_fail <;>
              simp [step, handleCmd, hn, hm, hf, StepOutcome.state]
          unfold TrackerInv
          rw [hst]
          exact ⟨hpair, hlen, hmod⟩
        | none =>
          have hst : (step env s
              (.cmd (some (.KeyDown u)))).state.pressed =
              evictLoop (btreeInsert u s.pressed) := by
            cases hf : env.upd_fail <;>
              simp [step, handleCmd, hn, hm, hf, StepOutcome.state]
          unfold TrackerInv
          rw [hst]
          refine ⟨?_, evictLoop_length_le _, ?_⟩
          · exact List.Pairwise.sublist (evictLoop_sublist _)
              (btreeInsert_pairwise u s.pressed hpair)
          · intro v hv
            have hv' : v ∈ btreeInsert u s.pressed :=
              (evictLoop_sublist _).subset hv
            rcases (mem_btreeInsert v u s.pressed).mp hv' with rfl | hv''
            · exact hm
            · exact hmod v hv''
      · have hst : (step env s (.cmd (some (.KeyDown u)))).state = s := by
          simp [step, handleCmd, hn, StepOutcome.state]
        unfold TrackerInv
        rw [hst]
        exact ⟨hpair, hlen, hmod⟩
    · by_cases hn : s.input_notify = true
      · cases hm : keyboard_usage_to_modifier u with
        | some m =>
          have hst : (step env s
              (.cmd (some (.KeyUp u)))).state.pressed = s.pressed := by
            cases hf : env.upd_fail <;>
              simp [step, handleCmd, hn, hm, hf, StepOutcome.state]
          unfold TrackerInv
          rw [hst]
          exact ⟨hpair, hlen, hmod⟩
        | none =>
          have hst : (step env s
              (.cmd (some (.KeyUp u)))).state.pressed =
              btreeRemove u s.pressed := by
            cases hf : env.upd_fail <;>
              simp [step, handleCmd, hn, hm, hf, StepOutcome.state]
          unfold TrackerInv
          rw [hst]
          refine ⟨?_, ?_, ?_⟩
          · exact List.Pairwise.sublist (List.filter_sublist _) hpair
          · exact le_trans (List.length_filter_le _ _) hlen
          · intro v hv
            exact hmod v (List.mem_filter.mp hv).1
      · have hst : (step env s (.cmd (some (.KeyUp u)))).state = s := by
          simp [step, handleCmd, hn, StepOutcome.state]
        unfold TrackerInv
        rw [hst]
        exact ⟨hpair, hlen, hmod⟩
    · have hst : (step env s
          (.cmd (some (.Battery lvl)))).state.pressed = s.pressed := by
        by_cases hc : lvl = s.last_battery
        · simp [step, handleCmd, hc, StepOutcome.state]
        · by_cases hb : s.battery_notify = true
          · cases hf : env.upd_fail <;>
              simp [step, handleCmd, hc, hb, hf, StepOutcome.state]
          · simp [step, handleCmd, hc, hb, StepOutcome.state]
      unfold TrackerInv
      rw [hst]
      exact ⟨hpair, hlen, hmod⟩
    · exact ⟨hpair, hlen, hmod⟩

/-- The tracker invariant holds after any finite run from any state
satisfying it. -/
theorem trackerInv_run (env : Env) :
    ∀ (inputs : List LoopInput) (s : BleState), TrackerInv s →
      TrackerInv (run env inputs s).state := by
  intro inputs
  induction inputs with
  | nil =>
    intro s h
    exact h
  | cons i is ih =>
    intro s h
    have hstep := trackerInv_step env s i h
    rcases hout : step env s i with ⟨s', t⟩ | s' | s'
    · rw [hout] at hstep
      simp only [StepOutcome.state] at hstep
      simp only [run, hout]
      exact ih s' hstep
    · rw [hout] at hstep
      simp only [StepOutcome.state] at hstep
      simp only [run, hout]
      exact hstep
    · rw [hout] at hstep
      simp only [StepOutcome.state] at hstep
      simp only [run, hout]
      exact hstep

/-- C8: after any sequence of processed inputs from session start, the
pressed set holds at most 6 elements and contains no modifier usage
(`0xE0`–`0xE7`); and in any context a key transition of an ordinary
(non-modifier) usage leaves the modifier mask unchanged. -/
theorem tracker_invariants :
    (∀ (env : Env) (inputs : List LoopInput),
      (run env inputs initState).state.pressed.length ≤ 6 ∧
      (∀ u : Nat, 0xE0 ≤ u → u ≤ 0xE7 →
        u ∉ (run env inputs initState).state.pressed)) ∧
    (∀ (env : Env) (t : BleState) (u : Nat),
      keyboard_usage_to_modifier u = none →
      (step env t (.cmd (some (.KeyDown u)))).state.modifiers =
        t.modifiers ∧
      (step env t (.cmd (some (.KeyUp u)))).state.modifiers =
        t.modifiers) := by
  constructor
  · intro env inputs
    have hinit : TrackerInv initState := by
      unfold TrackerInv
      simp [initState]
    obtain ⟨hp, hl, hm⟩ := trackerInv_run env inputs initState hinit
    refine ⟨hl, ?_⟩
    intro u h1 h2 hmem
    have hnone := hm u hmem
    interval_cases u <;> simp [keyboard_usage_to_modifier] at hnone
  · intro env t u hu
    constructor
    · by_cases hn : t.input_notify = true
      · cases hf : env.upd_fail <;>
          simp [step, handleCmd, hn, hu, hf, StepOutcome.state]
      · simp [step, handleCmd, hn, StepOutcome.state]
    · by_cases hn : t.input_notify = true
      · cases hf : env.upd_fail <;>
          simp [step, handleCmd, hn, hu, hf, StepOutcome.state]
      · simp [step, handleCmd, hn, StepOutcome.state]

/-- Witness for `tracker_invariants`: one ordinary key-down from the
initial state. -/
theorem tracker_invariants_witness :
    (run noFail [.cmd (some (.KeyDown 4))] initState).state.pressed.length
      ≤ 6 ∧
    (0xE0 : Nat) ∉
      (run noFail [.cmd (some (.KeyDown 4))] initState).state.pressed ∧
    (step noFail initState
      (.cmd (some (.KeyDown 4)))).state.modifiers = initState.modifiers :=
  ⟨(tracker_invariants.1 noFail [.cmd (some (.KeyDown 4))]).1,
   (tracker_invariants.1 noFail [.cmd (some (.KeyDown 4))]).2 0xE0
     (by decide) (by decide),
   (tracker_invariants.2 noFail initState 4 (by decide)).1⟩

end Bluper
